import Mathlib

/-!
Verification of the search-and-scrape cascade of a Playwright-based web
search tool.  The embedding models the Python sources:

* `content_scraper.py` — per-URL scraping and parallel wave batching;
* `web_search_tool.py` — URL normalization, the domain blocklist, the
  content quality gate and the four-provider cascade controller;
* `lambda_handler.py` — request validation and the HTTP handler;
* `resource_monitor.py` — memory/deadline signals, modelled as boolean
  oracles (`preB`, `flagsB`, ... below) because the monitor only feeds
  yes/no decisions into the controller.

Strings are modelled as `List Char`.  External collaborators (search
providers, the browser, the clock) are oracles carried in `CascadeEnv`:
a provider is a function from the requested count to the ordered list of
candidate URLs it returns (an exception inside a provider is modelled by
the empty list, exactly how the code's `except` blocks degrade it), and
a page fetch is a function from the URL to a `FetchOutcome`.  The fixed
per-page timeout is absorbed into the fetch oracle.
-/

abbrev Str := List Char

/-- Python `str.lower()` restricted to ASCII letters, which is all the
code's own data (URLs compared against an ASCII blocklist) exercises. -/
def pyLower (c : Char) : Char :=
  if 'A' ≤ c ∧ c ≤ 'Z' then Char.ofNat (c.toNat + 32) else c

/-- Python `str.strip()`: drop leading and trailing whitespace. -/
def pyStrip (s : Str) : Str :=
  ((s.dropWhile Char.isWhitespace).reverse.dropWhile Char.isWhitespace).reverse

/-- Python `str.split()` with no argument: split on runs of whitespace,
discarding empty pieces.  `cur` accumulates the current word reversed. -/
def splitWsAux : Str → Str → List Str
  | cur, [] => if cur.isEmpty then [] else [cur.reverse]
  | cur, c :: rest =>
    if c.isWhitespace then
      if cur.isEmpty then splitWsAux [] rest
      else cur.reverse :: splitWsAux [] rest
    else splitWsAux (c :: cur) rest

def splitWs (s : Str) : List Str := splitWsAux [] s

/-- Python `sep.join(parts)`. -/
def joinSep (sep : Str) : List Str → Str
  | [] => []
  | [w] => w
  | w :: rest => w ++ sep ++ joinSep sep rest

/-- Python `' '.join(words)`. -/
def joinSpace (ws : List Str) : Str := joinSep [' '] ws

/-- Python substring test `sub in s`. -/
def containsSub (sub : Str) : Str → Bool
  | [] => sub.isEmpty
  | c :: rest => sub.isPrefixOf (c :: rest) || containsSub sub rest

/-- Python `url.rstrip('/')`: remove all trailing slashes. -/
def rstripSlash (u : Str) : Str :=
  (u.reverse.dropWhile (fun c => c == '/')).reverse

/-- `ScrapedContent` from `content_scraper.py` (also re-declared in
`web_search_tool.py`). -/
structure ScrapedContent where
  url : Str
  title : Str
  content : Str
  word_count : Nat
  success : Bool
  error : Option Str
  images : List Str
deriving DecidableEq

/-- Outcome of one page fetch, the oracle behind `page.goto` +
`page.evaluate`: the page loaded and yielded a title and raw text, or
navigation/extraction raised, or already creating the tab raised. -/
inductive FetchOutcome where
  | ok (title text : Str)
  | navError (msg : Str)
  | pageError (msg : Str)
deriving DecidableEq

def scrapeErrorTag : Str := "Playwright scraping error: ".toList

def tabErrorTag : Str := "Scraping failed: ".toList

/-- `scrape_url_playwright` (content_scraper.py:27-82): on success the
raw text is whitespace-collapsed and the word count is taken over the
collapsed text; on any exception a failed `ScrapedContent` with zeroed
fields and an error message is returned. -/
def scrape_url_playwright (u : Str) : FetchOutcome → ScrapedContent
  | .ok title text =>
    let content := joinSpace (splitWs text)
    { url := u, title := title, content := content,
      word_count := (splitWs content).length,
      success := true, error := none, images := [] }
  | .navError m =>
    { url := u, title := [], content := [], word_count := 0,
      success := false, error := some (scrapeErrorTag ++ m), images := [] }
  | .pageError m =>
    { url := u, title := [], content := [], word_count := 0,
      success := false, error := some (scrapeErrorTag ++ m), images := [] }

/-- `scrape_in_new_tab` (content_scraper.py:105-129): a failure to even
create the tab is caught and converted to a failed item with its own
message; otherwise the fetch runs through `scrape_url_playwright`. -/
def scrape_in_new_tab (fetch : Str → FetchOutcome) (u : Str) : ScrapedContent :=
  match fetch u with
  | .pageError m =>
    { url := u, title := [], content := [], word_count := 0,
      success := false, error := some (tabErrorTag ++ m), images := [] }
  | o => scrape_url_playwright u o

/-- Partition a list into consecutive chunks: `cap` is the remaining
capacity of the current (reversed) chunk `cur`.  Models the
`for batch_start in range(0, len(urls), max_parallel)` wave loop. -/
def chunkAux {α : Type} (n : Nat) : List α → List α → Nat → List (List α)
  | cur, [], _ => if cur.isEmpty then [] else [cur.reverse]
  | cur, a :: l, 0 => cur.reverse :: chunkAux n [a] l (n - 1)
  | cur, a :: l, cap + 1 => chunkAux n (a :: cur) l cap

def toChunks {α : Type} (n : Nat) (l : List α) : List (List α) :=
  chunkAux n [] l n

/-- Write the scraped items of one wave into the result array starting at
`batch_start`: `results[index] = result` in the gather loop. -/
def placeBatch : List (Option ScrapedContent) → Nat → List ScrapedContent →
    List (Option ScrapedContent)
  | res, _, [] => res
  | res, i, x :: xs => placeBatch (res.set i (some x)) (i + 1) xs

/-- Sequential processing of the waves: each wave is gathered (asyncio
`gather` returns results in task order) and placed by index. -/
def runBatches (fetch : Str → FetchOutcome) :
    List (List Str) → Nat → List (Option ScrapedContent) →
    List (Option ScrapedContent)
  | [], _, res => res
  | b :: bs, start, res =>
    runBatches fetch bs (start + b.length)
      (placeBatch res start (b.map (scrape_in_new_tab fetch)))

/-- `scrape_parallel_playwright` (content_scraper.py:85-158): `[None] *
len(urls)` is progressively filled batch by batch. -/
def scrape_parallel_playwright (fetch : Str → FetchOutcome) (urls : List Str)
    (max_parallel : Nat) : List (Option ScrapedContent) :=
  if urls.isEmpty then []
  else runBatches fetch (toChunks max_parallel urls) 0
    (List.replicate urls.length none)

/-- `url.split('#')[0]` guarded by `if '#' in url`
(web_search_tool.py:188-189). -/
def dropFragment (u : Str) : Str :=
  if '#' ∈ u then u.takeWhile (fun c => c != '#') else u

/-- `url.lower()` guarded by `if '?' in url` (web_search_tool.py:190-192). -/
def lowerIfQuery (u : Str) : Str :=
  if '?' ∈ u then u.map pyLower else u

/-- `normalize_url` (web_search_tool.py:185-193): strip trailing slashes,
then keep only the part before the first `#`, then lower-case the whole
string when it contains `?`. -/
def normalize_url (url : Str) : Str :=
  lowerIfQuery (dropFragment (rstripSlash url))

/-- The static blocklist (web_search_tool.py:198-208), identical for
every provider. -/
def blocked_domains : List Str :=
  ["reddit.com".toList, "facebook.com".toList, "twitter.com".toList,
   "x.com".toList, "instagram.com".toList, "tiktok.com".toList,
   "pinterest.com".toList, "youtube.com".toList,
   "mastodon.social/@".toList]

/-- `is_blocked_url` (web_search_tool.py:196-210): a substring test of
each blocklist entry against the lower-cased URL. -/
def is_blocked_url (url : Str) : Bool :=
  blocked_domains.any (fun blocked => containsSub blocked (url.map pyLower))

/-- `is_llm_readable` (web_search_tool.py:64-78).  The Python ratio test
`alphanumeric_count / total_count >= 0.7` is modelled exactly as the
rational inequality `10 * count ≥ 7 * total`; the unicode character
class `c.isalnum() or c.isspace()` is the oracle `charOk`. -/
def is_llm_readable (charOk : Char → Bool) (text : Str) : Bool :=
  if text.length < 10 then false
  else decide (7 * text.length ≤ 10 * text.countP charOk)

def marker403 : Str := "403".toList
def markerForbidden : Str := "Forbidden".toList
def marker404 : Str := "404".toList
def markerNotFound : Str := "Not Found".toList

/-- The inline acceptance condition of the cascade's evaluation loops
(web_search_tool.py:256-261 and the copies at 347-352, 416-421,
485-490): fetch succeeded, at least 50 words, no error-page marker in
the title, and machine-readable text. -/
def passes_filter (charOk : Char → Bool) (c : ScrapedContent) : Bool :=
  c.success && decide (50 ≤ c.word_count) &&
  !(containsSub marker403 c.title) && !(containsSub markerForbidden c.title) &&
  !(containsSub marker404 c.title) && !(containsSub markerNotFound c.title) &&
  is_llm_readable charOk c.content

/-- One evaluation loop over a scraped batch: qualifying items are
appended to `acc` until `k` accepted items are reached, at which point
the loop breaks; after every other item the deadline oracle (`flags`,
one boolean per `should_return_partial_results` call) may break the
loop early.  With `flags = []` this is exactly the monitor-less loop. -/
def filterValid (charOk : Char → Bool) (k : Int) :
    List ScrapedContent → List ScrapedContent → List Bool →
    List ScrapedContent
  | acc, [], _ => acc
  | acc, c :: rest, flags =>
    if passes_filter charOk c then
      if k ≤ (acc.length : Int) + 1 then acc ++ [c]
      else if flags.headD false then acc ++ [c]
      else filterValid charOk k (acc ++ [c]) rest flags.tail
    else if flags.headD false then acc
    else filterValid charOk k acc rest flags.tail

structure FilterOut where
  admitted : List Str
  seen : List Str
deriving DecidableEq

/-- The per-provider dedup loop (web_search_tool.py:222-232 and its
copies): blocked URLs are dropped, a URL whose normalized form is
already in the running seen set is dropped, otherwise the raw URL is
admitted (original casing kept) and its normalized form recorded. -/
def dedupFilter : List Str → List Str → FilterOut
  | [], seen => ⟨[], seen⟩
  | url :: rest, seen =>
    if is_blocked_url url then dedupFilter rest seen
    else if normalize_url url ∈ seen then dedupFilter rest seen
    else
      let r := dedupFilter rest (normalize_url url :: seen)
      ⟨url :: r.admitted, r.seen⟩

/-- All external inputs of one `search_and_scrape` run.  Each provider
maps the requested count to its returned URL list; `pre?`/`flags?` are
the values of the `should_return_partial_results` deadline oracle at
its call sites (before a provider's batch / after each item);
`reduceParallel` is `should_reduce_parallelism()`. -/
structure CascadeEnv where
  charOk : Char → Bool
  fetch : Str → FetchOutcome
  braveSearch : Int → List Str
  startpageSearch : Int → List Str
  yahooSearch : Int → List Str
  yandexSearch : Int → List Str
  reduceParallel : Bool
  preB : Bool
  preS : Bool
  preY : Bool
  preZ : Bool
  flagsB : List Bool
  flagsS : List Bool
  flagsY : List Bool
  flagsZ : List Bool

def braveName : Str := "brave".toList
def startpageName : Str := "startpage".toList
def yahooName : Str := "yahoo".toList
def yandexName : Str := "yandex".toList
def noneName : Str := "none".toList
def plusSep : Str := "+".toList

/-- The search-size buffer (web_search_tool.py:177-182, and the same
shape for `needed` at 306-311, 375-380, 444-449). -/
def searchBuf (n : Int) : Int :=
  if n ≤ 5 then n + 3 else if n ≤ 10 then n + 4 else n + 5

/-- web_search_tool.py:293-296. -/
def acceptable_shortage (k : Int) : Int := if k ≤ 10 then 2 else 4

/-- web_search_tool.py:171-175. -/
def maxPar (env : CascadeEnv) : Nat := if env.reduceParallel then 5 else 11

structure PhaseOut where
  uniq : List Str
  valid : List ScrapedContent
  seen : List Str
  engines : List Str
  scraped : List ScrapedContent
deriving DecidableEq

/-- The request size of a fallback provider: `needed + buffer`, or the
full original `search_k` when every earlier provider failed completely
(web_search_tool.py:305-316). -/
def phaseSearchK (k search_k : Int) (failedAll : Bool) (validLen : Nat) : Int :=
  if failedAll then search_k else searchBuf (k - validLen)

/-- The body of a fallback block once it was decided to run: dedup the
provider's URLs against the running seen set; if the surviving batch is
empty, or the deadline oracle fires, nothing is scraped; otherwise the
batch is scraped, evaluated, and the provider recorded iff the scraped
batch is non-empty. -/
def phaseRun (charOk : Char → Bool) (fetch : Str → FetchOutcome)
    (urls : List Str) (pre : Bool) (flags : List Bool) (mp : Nat)
    (name : Str) (k : Int) (valid : List ScrapedContent)
    (seen engines : List Str) : PhaseOut :=
  if (dedupFilter urls seen).admitted.isEmpty then
    ⟨(dedupFilter urls seen).admitted, valid, (dedupFilter urls seen).seen,
      engines, []⟩
  else if pre then
    ⟨(dedupFilter urls seen).admitted, valid, (dedupFilter urls seen).seen,
      engines, []⟩
  else
    ⟨(dedupFilter urls seen).admitted,
      filterValid charOk k valid
        ((scrape_parallel_playwright fetch (dedupFilter urls seen).admitted
          mp).reduceOption) flags,
      (dedupFilter urls seen).seen,
      if 0 < ((scrape_parallel_playwright fetch
          (dedupFilter urls seen).admitted mp).reduceOption).length
      then engines ++ [name] else engines,
      (scrape_parallel_playwright fetch (dedupFilter urls seen).admitted
        mp).reduceOption⟩

/-- One fallback block of the cascade (web_search_tool.py:298-365 for
Startpage; the Yahoo and Yandex copies differ only in the provider and
in `failedAll`).  Runs only while there is a shortage and either every
earlier provider failed completely or the shortage exceeds the
acceptable one; the provider is asked for `needed + buffer` URLs (the
full original `search_k` if everything failed), the batch is deduped
against the running seen set, scraped unless the deadline oracle fires,
evaluated, and the provider is recorded iff its scraped batch was
non-empty. -/
def fallbackPhase (charOk : Char → Bool) (fetch : Str → FetchOutcome)
    (searchFn : Int → List Str) (pre : Bool) (flags : List Bool)
    (mp : Nat) (name : Str) (k search_k : Int) (failedAll : Bool)
    (valid : List ScrapedContent) (seen engines : List Str) : PhaseOut :=
  if 0 < k - (valid.length : Int) ∧
      (failedAll ∨ acceptable_shortage k < k - (valid.length : Int)) then
    phaseRun charOk fetch
      (searchFn (phaseSearchK k search_k failedAll valid.length))
      pre flags mp name k valid seen engines
  else ⟨[], valid, seen, engines, []⟩

/-- The Brave batch: dedup against an empty seen set, then (unless the
batch is empty or the deadline oracle fires first) scrape and evaluate
(web_search_tool.py:216-287). -/
def braveOut (env : CascadeEnv) (k : Int) : FilterOut :=
  dedupFilter (env.braveSearch (searchBuf k)) []

def valid1D (env : CascadeEnv) (k : Int) : List ScrapedContent :=
  if (braveOut env k).admitted.isEmpty then []
  else if env.preB then []
  else
    filterValid env.charOk k []
      ((scrape_parallel_playwright env.fetch (braveOut env k).admitted
        (maxPar env)).reduceOption) env.flagsB

/-- web_search_tool.py:290: Brave is recorded iff its batch yielded at
least one valid result. -/
def engines1D (env : CascadeEnv) (k : Int) : List Str :=
  if 0 < (valid1D env k).length then [braveName] else []

def spOut (env : CascadeEnv) (k : Int) : PhaseOut :=
  fallbackPhase env.charOk env.fetch env.startpageSearch env.preS env.flagsS
    (maxPar env) startpageName k (searchBuf k)
    (braveOut env k).admitted.isEmpty (valid1D env k) (braveOut env k).seen
    (engines1D env k)

def yhOut (env : CascadeEnv) (k : Int) : PhaseOut :=
  fallbackPhase env.charOk env.fetch env.yahooSearch env.preY env.flagsY
    (maxPar env) yahooName k (searchBuf k)
    ((braveOut env k).admitted.isEmpty && (spOut env k).valid.length == 0)
    (spOut env k).valid (spOut env k).seen (spOut env k).engines

def yxOut (env : CascadeEnv) (k : Int) : PhaseOut :=
  fallbackPhase env.charOk env.fetch env.yandexSearch env.preZ env.flagsZ
    (maxPar env) yandexName k (searchBuf k)
    ((braveOut env k).admitted.isEmpty && (yhOut env k).valid.length == 0)
    (yhOut env k).valid (yhOut env k).seen (yhOut env k).engines

/-- web_search_tool.py:506-511: join the recorded engines into one
composite identifier, `"none"` when the list is empty. -/
def engineName (engines : List Str) : Str :=
  if engines.length = 0 then noneName
  else if engines.length = 1 then engines.headD []
  else joinSep plusSep engines

/-- Observable trace of one content-mode `search_and_scrape` run:
the Brave batch, the three fallback phases, the final accumulator
`valid`, the recorded engines, the composite identifier, and the
returned results `valid_results[:k]` (web_search_tool.py:515). -/
structure CascadeTrace where
  unique_brave : List Str
  valid1 : List ScrapedContent
  sp : PhaseOut
  yh : PhaseOut
  yx : PhaseOut
  valid : List ScrapedContent
  engines : List Str
  engine : Str
  results : List ScrapedContent
deriving DecidableEq

def runCascade (env : CascadeEnv) (k : Int) : CascadeTrace :=
  { unique_brave := (braveOut env k).admitted
    valid1 := valid1D env k
    sp := spOut env k
    yh := yhOut env k
    yx := yxOut env k
    valid := (yxOut env k).valid
    engines := (yxOut env k).engines
    engine := engineName (yxOut env k).engines
    results := (yxOut env k).valid.take k.toNat }

def supported_engines : List Str :=
  ["brave".toList, "startpage".toList, "yahoo".toList, "yandex".toList]

/-- `ContentSearchRequest.validate` (lambda_handler.py:87-96), returning
the message of the first failing check. -/
def validateContentRequest (query : Str) (k : Int) (engine : Str) :
    Option Str :=
  if query.isEmpty || (pyStrip query).length == 0 then
    some ("Query cannot be empty".toList)
  else if 500 < query.length then
    some ("Query must be 1-500 characters".toList)
  else if k < 1 ∨ 20 < k then
    some ("k must be between 1 and 20".toList)
  else if engine ∉ supported_engines then
    some ("Unsupported engine".toList)
  else none

/-- `search_and_scrape` itself re-checks the engine
(web_search_tool.py:141-144) and raises `ValueError` for anything but
`brave`; otherwise the cascade runs. -/
def search_and_scrape (env : CascadeEnv) (k : Int) (engine : Str) :
    Except Str CascadeTrace :=
  if engine != braveName then .error ("Unsupported search engine".toList)
  else .ok (runCascade env k)

/-- The content branch of `lambda_handler` (lambda_handler.py:283-399):
validation failure returns 400 before any tool work; a `ValueError`
escaping the tool becomes 500; success returns 200 with the result. -/
def content_handler (env : CascadeEnv) (query : Str) (k : Int)
    (engine : Str) : Int × Option CascadeTrace :=
  match validateContentRequest query k engine with
  | some _ => (400, none)
  | none =>
    match search_and_scrape env k engine with
    | .error _ => (500, none)
    | .ok t => (200, some t)

/-- Modelled from the spec: the code nowhere computes a registrable
domain (its blocklist test is a plain substring match), but the claim
about `is_blocked_url` is phrased in terms of one, so the spec's
"Domain extracted from host, with leading `www.` stripped" is modelled
here to state that claim: lower-case, drop the scheme, keep the host up
to the first slash, strip a leading `www.`. -/
def registrable_domain (u : Str) : Str :=
  let low := u.map pyLower
  let afterScheme := schemeDrop low
  let host := (if containsSub ("://".toList) low then afterScheme else low).takeWhile
    (fun c => c != '/')
  if ("www.".toList).isPrefixOf host then host.drop 4 else host
where
  schemeDrop : Str → Str
    | [] => []
    | c :: rest =>
      if ("://".toList).isPrefixOf (c :: rest) then rest.drop 2
      else schemeDrop rest

/-- Modelled from the spec: "registrable domain matches a fixed
blocklist of low-signal domain suffixes" — the domain equals an entry
or ends in `"." ++ entry`. -/
def domain_on_blocklist (d : Str) : Bool :=
  blocked_domains.any (fun b => d == b || ('.' :: b).isSuffixOf d)

/-! ### Lemmas about the wave scraper -/

theorem scrape_in_new_tab_url (f : Str → FetchOutcome) (u : Str) :
    (scrape_in_new_tab f u).url = u := by
  rw [scrape_in_new_tab]
  cases f u <;> simp [scrape_url_playwright]

theorem chunkAux_flatten {α : Type} (n : Nat) :
    ∀ (l cur : List α) (cap : Nat),
      (chunkAux n cur l cap).flatten = cur.reverse ++ l := by
  intro l
  induction l with
  | nil =>
    intro cur cap
    rw [chunkAux]
    split
    · simp_all [List.isEmpty_iff]
    · simp
  | cons a l ih =>
    intro cur cap
    cases cap with
    | zero => rw [chunkAux]; simp [ih]
    | succ cap => rw [chunkAux, ih]; simp

theorem toChunks_flatten {α : Type} (n : Nat) (l : List α) :
    (toChunks n l).flatten = l := by
  rw [toChunks, chunkAux_flatten]; simp

theorem set_after (y : Option ScrapedContent) :
    ∀ (d t : List (Option ScrapedContent)) (z : Option ScrapedContent),
      (d ++ z :: t).set d.length y = d ++ y :: t := by
  intro d
  induction d with
  | nil => intro t z; simp
  | cons a d ih => intro t z; simp [List.set, ih]

theorem placeBatch_spec :
    ∀ (xs done : List ScrapedContent) (m : Nat), xs.length ≤ m →
      placeBatch (done.map some ++ List.replicate m none) done.length xs
        = (done ++ xs).map some ++ List.replicate (m - xs.length) none := by
  intro xs
  induction xs with
  | nil => intro done m _; simp [placeBatch]
  | cons x xs ih =>
    intro done m hm
    cases m with
    | zero => simp at hm
    | succ m =>
      rw [placeBatch]
      have hset : (done.map some ++
            List.replicate (m + 1) (none : Option ScrapedContent)).set
            done.length (some x)
          = (done ++ [x]).map some ++ List.replicate m none := by
        rw [List.replicate_succ]
        have h := set_after (some x) (done.map some)
          (List.replicate m none) none
        simp only [List.length_map] at h
        simp [h]
      rw [hset]
      have hlen : done.length + 1 = (done ++ [x]).length := by simp
      rw [hlen, ih (done ++ [x]) m (by simp at hm; omega)]
      simp [Nat.succ_sub_succ]

theorem runBatches_spec (f : Str → FetchOutcome) :
    ∀ (bs : List (List Str)) (done : List ScrapedContent),
      runBatches f bs done.length
        (done.map some ++ List.replicate bs.flatten.length none)
        = ((done ++ bs.flatten.map (scrape_in_new_tab f)).map some) := by
  intro bs
  induction bs with
  | nil => intro done; simp [runBatches]
  | cons b bs ih =>
    intro done
    rw [runBatches]
    have hflat : (b :: bs).flatten.length = b.length + bs.flatten.length := by
      simp
    rw [hflat,
      placeBatch_spec (b.map (scrape_in_new_tab f)) done _ (by simp)]
    have harith : b.length + bs.flatten.length -
        (b.map (scrape_in_new_tab f)).length = bs.flatten.length := by
      simp
    rw [harith]
    have hstart : done.length + b.length
        = (done ++ b.map (scrape_in_new_tab f)).length := by simp
    rw [hstart, ih (done ++ b.map (scrape_in_new_tab f))]
    simp

theorem scrape_parallel_eq (f : Str → FetchOutcome) (urls : List Str)
    (mp : Nat) :
    scrape_parallel_playwright f urls mp
      = (urls.map (scrape_in_new_tab f)).map some := by
  rw [scrape_parallel_playwright]
  split
  · simp_all [List.isEmpty_iff]
  · have h := runBatches_spec f (toChunks mp urls) []
    simpa [toChunks_flatten] using h

theorem map_some_reduceOption (l : List ScrapedContent) :
    (l.map some).reduceOption = l := by
  induction l with
  | nil => simp
  | cons a l ih => simp [ih]

theorem scrape_parallel_reduce (f : Str → FetchOutcome) (urls : List Str)
    (mp : Nat) :
    (scrape_parallel_playwright f urls mp).reduceOption
      = urls.map (scrape_in_new_tab f) := by
  rw [scrape_parallel_eq, map_some_reduceOption]

/-! ### Lemmas about the evaluation loop -/

theorem filterValid_length (charOk : Char → Bool) (k : Int) :
    ∀ (l acc : List ScrapedContent) (flags : List Bool),
      (acc.length : Int) < k →
      ((filterValid charOk k acc l flags).length : Int) ≤ k := by
  intro l
  induction l with
  | nil => intro acc flags h; rw [filterValid]; omega
  | cons c rest ih =>
    intro acc flags h
    rw [filterValid]
    cases hg : passes_filter charOk c
    · simp only [hg, Bool.false_eq_true, if_false]
      split
      · omega
      · exact ih acc flags.tail h
    · simp only [hg, if_true]
      split
      · simp; omega
      · split
        · simp; omega
        · exact ih (acc ++ [c]) flags.tail (by simp; omega)

theorem filterValid_decomp (charOk : Char → Bool) (k : Int) :
    ∀ (l acc : List ScrapedContent) (flags : List Bool),
      ∃ t, t.Sublist l ∧ filterValid charOk k acc l flags = acc ++ t ∧
        ∀ x ∈ t, passes_filter charOk x = true := by
  intro l
  induction l with
  | nil =>
    intro acc flags
    exact ⟨[], List.nil_sublist [], by rw [filterValid]; simp, by simp⟩
  | cons c rest ih =>
    intro acc flags
    rw [filterValid]
    cases hg : passes_filter charOk c
    · simp only [hg, Bool.false_eq_true, if_false]
      split
      · exact ⟨[], List.nil_sublist _, by simp, by simp⟩
      · obtain ⟨t, hts, heq, hall⟩ := ih acc flags.tail
        exact ⟨t, hts.cons c, heq, hall⟩
    · simp only [hg, if_true]
      split
      · refine ⟨[c], ?_, by simp, by simp [hg]⟩
        exact (List.nil_sublist rest).cons₂ c
      · split
        · refine ⟨[c], ?_, by simp, by simp [hg]⟩
          exact (List.nil_sublist rest).cons₂ c
        · obtain ⟨t, hts, heq, hall⟩ := ih (acc ++ [c]) flags.tail
          refine ⟨c :: t, hts.cons₂ c, by rw [heq]; simp, ?_⟩
          intro x hx
          rcases List.mem_cons.mp hx with hx | hx
          · simpa [hx] using hg
          · exact hall x hx

/-! ### Lemmas about the dedup filter -/

theorem dedupFilter_sublist :
    ∀ (l seen : List Str), (dedupFilter l seen).admitted.Sublist l := by
  intro l
  induction l with
  | nil => intro seen; rw [dedupFilter]
  | cons url rest ih =>
    intro seen
    rw [dedupFilter]
    split
    · exact (ih seen).cons url
    · split
      · exact (ih seen).cons url
      · exact (ih (normalize_url url :: seen)).cons₂ url

theorem dedupFilter_not_seen :
    ∀ (l seen : List Str) (u : Str),
      u ∈ (dedupFilter l seen).admitted → normalize_url u ∉ seen := by
  intro l
  induction l with
  | nil => intro seen u hu; rw [dedupFilter] at hu; simp at hu
  | cons url rest ih =>
    intro seen u hu
    rw [dedupFilter] at hu
    split at hu
    · exact ih seen u hu
    · split at hu
      · exact ih seen u hu
      · rcases List.mem_cons.mp hu with rfl | hu
        · assumption
        · intro hmem
          exact ih _ u hu (List.mem_cons_of_mem _ hmem)

theorem dedupFilter_seen_mono :
    ∀ (l seen : List Str) (x : Str),
      x ∈ seen → x ∈ (dedupFilter l seen).seen := by
  intro l
  induction l with
  | nil => intro seen x hx; rw [dedupFilter]; exact hx
  | cons url rest ih =>
    intro seen x hx
    rw [dedupFilter]
    split
    · exact ih seen x hx
    · split
      · exact ih seen x hx
      · exact ih _ x (List.mem_cons_of_mem _ hx)

theorem dedupFilter_mem_seen :
    ∀ (l seen : List Str) (u : Str),
      u ∈ (dedupFilter l seen).admitted →
      normalize_url u ∈ (dedupFilter l seen).seen := by
  intro l
  induction l with
  | nil => intro seen u hu; rw [dedupFilter] at hu; simp at hu
  | cons url rest ih =>
    intro seen u
    rw [dedupFilter]
    by_cases h1 : is_blocked_url url = true
    · simp only [h1, if_true]
      exact ih seen u
    · simp only [h1, if_false]
      by_cases h2 : normalize_url url ∈ seen
      · simp only [if_pos h2]
        exact ih seen u
      · simp only [if_neg h2]
        intro hu
        rcases List.mem_cons.mp hu with rfl | hu
        · exact dedupFilter_seen_mono rest _ _ (List.mem_cons_self _ _)
        · exact ih _ u hu

theorem dedupFilter_pairwise :
    ∀ (l seen : List Str),
      (dedupFilter l seen).admitted.Pairwise
        (fun a b => normalize_url a ≠ normalize_url b) := by
  intro l
  induction l with
  | nil => intro seen; rw [dedupFilter]; exact List.Pairwise.nil
  | cons url rest ih =>
    intro seen
    rw [dedupFilter]
    split
    · exact ih seen
    · split
      · exact ih seen
      · refine List.Pairwise.cons ?_ (ih _)
        intro b hb heq
        have := dedupFilter_not_seen rest _ b hb
        exact this (heq ▸ List.mem_cons_self _ _)

/-! ### Lemmas about one fallback phase -/

theorem phaseRun_spec (charOk : Char → Bool) (fetch : Str → FetchOutcome)
    (urls : List Str) (pre : Bool) (flags : List Bool) (mp : Nat)
    (name : Str) (k : Int) (valid : List ScrapedContent)
    (seen engines : List Str) :
    phaseRun charOk fetch urls pre flags mp name k valid seen engines
      = ⟨(dedupFilter urls seen).admitted, valid,
         (dedupFilter urls seen).seen, engines, []⟩ ∨
    ((dedupFilter urls seen).admitted ≠ [] ∧
     phaseRun charOk fetch urls pre flags mp name k valid seen engines
      = ⟨(dedupFilter urls seen).admitted,
         filterValid charOk k valid
           ((dedupFilter urls seen).admitted.map (scrape_in_new_tab fetch))
           flags,
         (dedupFilter urls seen).seen, engines ++ [name],
         (dedupFilter urls seen).admitted.map (scrape_in_new_tab fetch)⟩) := by
  rw [phaseRun]
  by_cases h1 : (dedupFilter urls seen).admitted.isEmpty = true
  · rw [if_pos h1]; left; rfl
  · rw [if_neg h1]
    by_cases h2 : pre = true
    · rw [if_pos h2]; left; rfl
    · rw [if_neg h2]
      right
      have hne : (dedupFilter urls seen).admitted ≠ [] := by
        simpa [List.isEmpty_iff] using h1
      have hlen : 0 < ((scrape_parallel_playwright fetch
          (dedupFilter urls seen).admitted mp).reduceOption).length := by
        rw [scrape_parallel_reduce]
        simpa [List.length_pos] using hne
      refine ⟨hne, ?_⟩
      rw [if_pos hlen, scrape_parallel_reduce]

theorem fallbackPhase_spec (charOk : Char → Bool) (fetch : Str → FetchOutcome)
    (searchFn : Int → List Str) (pre : Bool) (flags : List Bool) (mp : Nat)
    (name : Str) (k sk : Int) (failedAll : Bool)
    (valid : List ScrapedContent) (seen engines : List Str) :
    fallbackPhase charOk fetch searchFn pre flags mp name k sk failedAll
        valid seen engines = ⟨[], valid, seen, engines, []⟩ ∨
    ((valid.length : Int) < k ∧ ∃ q,
      (fallbackPhase charOk fetch searchFn pre flags mp name k sk failedAll
          valid seen engines
        = ⟨(dedupFilter (searchFn q) seen).admitted, valid,
           (dedupFilter (searchFn q) seen).seen, engines, []⟩ ∨
       ((dedupFilter (searchFn q) seen).admitted ≠ [] ∧
        fallbackPhase charOk fetch searchFn pre flags mp name k sk failedAll
            valid seen engines
          = ⟨(dedupFilter (searchFn q) seen).admitted,
             filterValid charOk k valid
               ((dedupFilter (searchFn q) seen).admitted.map
                 (scrape_in_new_tab fetch)) flags,
             (dedupFilter (searchFn q) seen).seen, engines ++ [name],
             (dedupFilter (searchFn q) seen).admitted.map
               (scrape_in_new_tab fetch)⟩))) := by
  rw [fallbackPhase]
  by_cases h1 : 0 < k - (valid.length : Int) ∧
      (failedAll = true ∨ acceptable_shortage k < k - (valid.length : Int))
  · rw [if_pos h1]
    right
    refine ⟨by omega, phaseSearchK k sk failedAll valid.length, ?_⟩
    exact phaseRun_spec charOk fetch _ pre flags mp name k valid seen engines
  · rw [if_neg h1]
    left
    rfl

section PhaseLemmas

variable (charOk : Char → Bool) (fetch : Str → FetchOutcome)
  (searchFn : Int → List Str) (pre : Bool) (flags : List Bool) (mp : Nat)
  (name : Str) (k sk : Int) (failedAll : Bool)
  (valid : List ScrapedContent) (seen engines : List Str)

theorem fallbackPhase_valid_decomp :
    ∃ t, t.Sublist ((fallbackPhase charOk fetch searchFn pre flags mp name
        k sk failedAll valid seen engines).uniq.map (scrape_in_new_tab fetch)) ∧
      (fallbackPhase charOk fetch searchFn pre flags mp name k sk failedAll
        valid seen engines).valid = valid ++ t ∧
      ∀ x ∈ t, passes_filter charOk x = true := by
  rcases fallbackPhase_spec charOk fetch searchFn pre flags mp name k sk
      failedAll valid seen engines with h | ⟨hlt, q, h | ⟨hne, h⟩⟩ <;> rw [h]
  · exact ⟨[], List.nil_sublist _, by simp, by simp⟩
  · exact ⟨[], List.nil_sublist _, by simp, by simp⟩
  · obtain ⟨t, hts, heq, hall⟩ := filterValid_decomp charOk k
      ((dedupFilter (searchFn q) seen).admitted.map (scrape_in_new_tab fetch))
      valid flags
    exact ⟨t, hts, heq, hall⟩

theorem fallbackPhase_valid_length
    (h : (valid.length : Int) ≤ k) :
    (((fallbackPhase charOk fetch searchFn pre flags mp name k sk failedAll
      valid seen engines).valid.length : Int)) ≤ k := by
  rcases fallbackPhase_spec charOk fetch searchFn pre flags mp name k sk
      failedAll valid seen engines with hs | ⟨hlt, q, hs | ⟨hne, hs⟩⟩ <;>
    rw [hs]
  · exact h
  · exact h
  · exact filterValid_length charOk k _ valid flags hlt

theorem fallbackPhase_seen_mono (x : Str) (hx : x ∈ seen) :
    x ∈ (fallbackPhase charOk fetch searchFn pre flags mp name k sk failedAll
      valid seen engines).seen := by
  rcases fallbackPhase_spec charOk fetch searchFn pre flags mp name k sk
      failedAll valid seen engines with hs | ⟨hlt, q, hs | ⟨hne, hs⟩⟩ <;>
    rw [hs]
  · exact hx
  · exact dedupFilter_seen_mono _ seen x hx
  · exact dedupFilter_seen_mono _ seen x hx

theorem fallbackPhase_uniq_not_seen (u : Str)
    (hu : u ∈ (fallbackPhase charOk fetch searchFn pre flags mp name k sk
      failedAll valid seen engines).uniq) :
    normalize_url u ∉ seen := by
  rcases fallbackPhase_spec charOk fetch searchFn pre flags mp name k sk
      failedAll valid seen engines with hs | ⟨hlt, q, hs | ⟨hne, hs⟩⟩ <;>
    rw [hs] at hu
  · simp at hu
  · exact dedupFilter_not_seen _ seen u hu
  · exact dedupFilter_not_seen _ seen u hu

theorem fallbackPhase_uniq_mem_seen (u : Str)
    (hu : u ∈ (fallbackPhase charOk fetch searchFn pre flags mp name k sk
      failedAll valid seen engines).uniq) :
    normalize_url u ∈ (fallbackPhase charOk fetch searchFn pre flags mp name
      k sk failedAll valid seen engines).seen := by
  rcases fallbackPhase_spec charOk fetch searchFn pre flags mp name k sk
      failedAll valid seen engines with hs | ⟨hlt, q, hs | ⟨hne, hs⟩⟩ <;>
    rw [hs] at hu ⊢
  · simp at hu
  · exact dedupFilter_mem_seen _ seen u hu
  · exact dedupFilter_mem_seen _ seen u hu

theorem fallbackPhase_uniq_pairwise :
    (fallbackPhase charOk fetch searchFn pre flags mp name k sk failedAll
      valid seen engines).uniq.Pairwise
      (fun a b => normalize_url a ≠ normalize_url b) := by
  rcases fallbackPhase_spec charOk fetch searchFn pre flags mp name k sk
      failedAll valid seen engines with hs | ⟨hlt, q, hs | ⟨hne, hs⟩⟩ <;>
    rw [hs]
  · exact List.Pairwise.nil
  · exact dedupFilter_pairwise _ seen
  · exact dedupFilter_pairwise _ seen

theorem fallbackPhase_engines :
    (fallbackPhase charOk fetch searchFn pre flags mp name k sk failedAll
      valid seen engines).engines = engines ∨
    ((fallbackPhase charOk fetch searchFn pre flags mp name k sk failedAll
      valid seen engines).uniq ≠ [] ∧
     (fallbackPhase charOk fetch searchFn pre flags mp name k sk failedAll
      valid seen engines).engines = engines ++ [name]) := by
  rcases fallbackPhase_spec charOk fetch searchFn pre flags mp name k sk
      failedAll valid seen engines with hs | ⟨hlt, q, hs | ⟨hne, hs⟩⟩ <;>
    rw [hs]
  · left; rfl
  · left; rfl
  · right; exact ⟨hne, rfl⟩

end PhaseLemmas

/-! ### Cascade-level lemmas -/

theorem valid1D_decomp (env : CascadeEnv) (k : Int) :
    ∃ t, t.Sublist ((braveOut env k).admitted.map (scrape_in_new_tab env.fetch)) ∧
      valid1D env k = t ∧ ∀ x ∈ t, passes_filter env.charOk x = true := by
  rw [valid1D]
  by_cases h1 : (braveOut env k).admitted.isEmpty = true
  · rw [if_pos h1]
    exact ⟨[], List.nil_sublist _, rfl, by simp⟩
  · rw [if_neg h1]
    by_cases h2 : env.preB = true
    · rw [if_pos h2]
      exact ⟨[], List.nil_sublist _, rfl, by simp⟩
    · rw [if_neg h2, scrape_parallel_reduce]
      obtain ⟨t, hts, heq, hall⟩ := filterValid_decomp env.charOk k
        ((braveOut env k).admitted.map (scrape_in_new_tab env.fetch))
        [] env.flagsB
      exact ⟨t, hts, by rw [heq]; simp, hall⟩

theorem valid1D_length (env : CascadeEnv) (k : Int) (hk : 1 ≤ k) :
    ((valid1D env k).length : Int) ≤ k := by
  rw [valid1D]
  by_cases h1 : (braveOut env k).admitted.isEmpty = true
  · rw [if_pos h1]; simp; omega
  · rw [if_neg h1]
    by_cases h2 : env.preB = true
    · rw [if_pos h2]; simp; omega
    · rw [if_neg h2]
      exact filterValid_length env.charOk k _ [] env.flagsB (by simp; omega)

theorem spOut_valid_length (env : CascadeEnv) (k : Int) (hk : 1 ≤ k) :
    (((spOut env k).valid.length : Int)) ≤ k := by
  rw [spOut]
  exact fallbackPhase_valid_length _ _ _ _ _ _ _ _ _ _ _ _ _
    (valid1D_length env k hk)

theorem yhOut_valid_length (env : CascadeEnv) (k : Int) (hk : 1 ≤ k) :
    (((yhOut env k).valid.length : Int)) ≤ k := by
  rw [yhOut]
  exact fallbackPhase_valid_length _ _ _ _ _ _ _ _ _ _ _ _ _
    (spOut_valid_length env k hk)

theorem yxOut_valid_length (env : CascadeEnv) (k : Int) (hk : 1 ≤ k) :
    (((yxOut env k).valid.length : Int)) ≤ k := by
  rw [yxOut]
  exact fallbackPhase_valid_length _ _ _ _ _ _ _ _ _ _ _ _ _
    (yhOut_valid_length env k hk)

theorem braveOut_pairwise (env : CascadeEnv) (k : Int) :
    (braveOut env k).admitted.Pairwise
      (fun a b => normalize_url a ≠ normalize_url b) := by
  rw [braveOut]; exact dedupFilter_pairwise _ _

theorem braveOut_mem_seen (env : CascadeEnv) (k : Int) (u : Str)
    (hu : u ∈ (braveOut env k).admitted) :
    normalize_url u ∈ (braveOut env k).seen := by
  rw [braveOut] at hu ⊢; exact dedupFilter_mem_seen _ _ u hu

theorem spOut_seen_mono (env : CascadeEnv) (k : Int) (x : Str)
    (hx : x ∈ (braveOut env k).seen) : x ∈ (spOut env k).seen := by
  rw [spOut]; exact fallbackPhase_seen_mono _ _ _ _ _ _ _ _ _ _ _ _ _ x hx

theorem yhOut_seen_mono (env : CascadeEnv) (k : Int) (x : Str)
    (hx : x ∈ (spOut env k).seen) : x ∈ (yhOut env k).seen := by
  rw [yhOut]; exact fallbackPhase_seen_mono _ _ _ _ _ _ _ _ _ _ _ _ _ x hx

theorem spOut_uniq_not_seen (env : CascadeEnv) (k : Int) (u : Str)
    (hu : u ∈ (spOut env k).uniq) :
    normalize_url u ∉ (braveOut env k).seen := by
  rw [spOut] at hu
  exact fallbackPhase_uniq_not_seen _ _ _ _ _ _ _ _ _ _ _ _ _ u hu

theorem yhOut_uniq_not_seen (env : CascadeEnv) (k : Int) (u : Str)
    (hu : u ∈ (yhOut env k).uniq) :
    normalize_url u ∉ (spOut env k).seen := by
  rw [yhOut] at hu
  exact fallbackPhase_uniq_not_seen _ _ _ _ _ _ _ _ _ _ _ _ _ u hu

theorem yxOut_uniq_not_seen (env : CascadeEnv) (k : Int) (u : Str)
    (hu : u ∈ (yxOut env k).uniq) :
    normalize_url u ∉ (yhOut env k).seen := by
  rw [yxOut] at hu
  exact fallbackPhase_uniq_not_seen _ _ _ _ _ _ _ _ _ _ _ _ _ u hu

theorem spOut_uniq_mem_seen (env : CascadeEnv) (k : Int) (u : Str)
    (hu : u ∈ (spOut env k).uniq) :
    normalize_url u ∈ (spOut env k).seen := by
  rw [spOut] at hu ⊢
  exact fallbackPhase_uniq_mem_seen _ _ _ _ _ _ _ _ _ _ _ _ _ u hu

theorem yhOut_uniq_mem_seen (env : CascadeEnv) (k : Int) (u : Str)
    (hu : u ∈ (yhOut env k).uniq) :
    normalize_url u ∈ (yhOut env k).seen := by
  rw [yhOut] at hu ⊢
  exact fallbackPhase_uniq_mem_seen _ _ _ _ _ _ _ _ _ _ _ _ _ u hu

theorem spOut_uniq_pairwise (env : CascadeEnv) (k : Int) :
    (spOut env k).uniq.Pairwise
      (fun a b => normalize_url a ≠ normalize_url b) := by
  rw [spOut]; exact fallbackPhase_uniq_pairwise _ _ _ _ _ _ _ _ _ _ _ _ _

theorem yhOut_uniq_pairwise (env : CascadeEnv) (k : Int) :
    (yhOut env k).uniq.Pairwise
      (fun a b => normalize_url a ≠ normalize_url b) := by
  rw [yhOut]; exact fallbackPhase_uniq_pairwise _ _ _ _ _ _ _ _ _ _ _ _ _

theorem yxOut_uniq_pairwise (env : CascadeEnv) (k : Int) :
    (yxOut env k).uniq.Pairwise
      (fun a b => normalize_url a ≠ normalize_url b) := by
  rw [yxOut]; exact fallbackPhase_uniq_pairwise _ _ _ _ _ _ _ _ _ _ _ _ _

/-- The four admitted batches of one run have pairwise-distinct
normalized URLs, also across phases: each batch's normalized forms are
inside the seen set it hands on, and later batches avoid everything in
the seen set they receive, which only ever grows. -/
theorem cascade_uniq_pairwise (env : CascadeEnv) (k : Int) :
    ((braveOut env k).admitted ++ ((spOut env k).uniq ++ ((yhOut env k).uniq
      ++ (yxOut env k).uniq))).Pairwise
      (fun a b => normalize_url a ≠ normalize_url b) := by
  rw [List.pairwise_append]
  refine ⟨braveOut_pairwise env k, ?_, ?_⟩
  · rw [List.pairwise_append]
    refine ⟨spOut_uniq_pairwise env k, ?_, ?_⟩
    · rw [List.pairwise_append]
      refine ⟨yhOut_uniq_pairwise env k, yxOut_uniq_pairwise env k, ?_⟩
      intro a ha b hb heq
      exact yxOut_uniq_not_seen env k b hb
        (heq ▸ yhOut_uniq_mem_seen env k a ha)
    · intro a ha b hb
      rcases List.mem_append.mp hb with hb | hb
      · intro heq
        exact yhOut_uniq_not_seen env k b hb
          (heq ▸ spOut_uniq_mem_seen env k a ha)
      · intro heq
        exact yxOut_uniq_not_seen env k b hb
          (heq ▸ yhOut_seen_mono env k _ (spOut_uniq_mem_seen env k a ha))
  · intro a ha b hb
    have haS : normalize_url a ∈ (braveOut env k).seen :=
      braveOut_mem_seen env k a ha
    rcases List.mem_append.mp hb with hb | hb
    · intro heq
      exact spOut_uniq_not_seen env k b hb (heq ▸ haS)
    · rcases List.mem_append.mp hb with hb | hb
      · intro heq
        exact yhOut_uniq_not_seen env k b hb
          (heq ▸ spOut_seen_mono env k _ haS)
      · intro heq
        exact yxOut_uniq_not_seen env k b hb
          (heq ▸ yhOut_seen_mono env k _ (spOut_seen_mono env k _ haS))

theorem map_url_scrapeTab (f : Str → FetchOutcome) :
    ∀ l : List Str,
      (l.map (scrape_in_new_tab f)).map (fun c => c.url) = l := by
  intro l
  induction l with
  | nil => simp
  | cons a l ih => simp [ih, scrape_in_new_tab_url]

theorem spOut_valid_decomp (env : CascadeEnv) (k : Int) :
    ∃ t, t.Sublist ((spOut env k).uniq.map (scrape_in_new_tab env.fetch)) ∧
      (spOut env k).valid = valid1D env k ++ t ∧
      ∀ x ∈ t, passes_filter env.charOk x = true := by
  rw [spOut]
  exact fallbackPhase_valid_decomp _ _ _ _ _ _ _ _ _ _ _ _ _

theorem yhOut_valid_decomp (env : CascadeEnv) (k : Int) :
    ∃ t, t.Sublist ((yhOut env k).uniq.map (scrape_in_new_tab env.fetch)) ∧
      (yhOut env k).valid = (spOut env k).valid ++ t ∧
      ∀ x ∈ t, passes_filter env.charOk x = true := by
  rw [yhOut]
  exact fallbackPhase_valid_decomp _ _ _ _ _ _ _ _ _ _ _ _ _

theorem yxOut_valid_decomp (env : CascadeEnv) (k : Int) :
    ∃ t, t.Sublist ((yxOut env k).uniq.map (scrape_in_new_tab env.fetch)) ∧
      (yxOut env k).valid = (yhOut env k).valid ++ t ∧
      ∀ x ∈ t, passes_filter env.charOk x = true := by
  rw [yxOut]
  exact fallbackPhase_valid_decomp _ _ _ _ _ _ _ _ _ _ _ _ _

theorem cascade_valid_decomp (env : CascadeEnv) (k : Int) :
    ∃ t1 t2 t3 t4,
      t1.Sublist ((braveOut env k).admitted.map (scrape_in_new_tab env.fetch)) ∧
      t2.Sublist ((spOut env k).uniq.map (scrape_in_new_tab env.fetch)) ∧
      t3.Sublist ((yhOut env k).uniq.map (scrape_in_new_tab env.fetch)) ∧
      t4.Sublist ((yxOut env k).uniq.map (scrape_in_new_tab env.fetch)) ∧
      (yxOut env k).valid = ((t1 ++ t2) ++ t3) ++ t4 ∧
      ∀ x ∈ (yxOut env k).valid, passes_filter env.charOk x = true := by
  obtain ⟨t1, h1s, h1e, h1a⟩ := valid1D_decomp env k
  obtain ⟨t2, h2s, h2e, h2a⟩ := spOut_valid_decomp env k
  obtain ⟨t3, h3s, h3e, h3a⟩ := yhOut_valid_decomp env k
  obtain ⟨t4, h4s, h4e, h4a⟩ := yxOut_valid_decomp env k
  refine ⟨t1, t2, t3, t4, h1s, h2s, h3s, h4s, ?_, ?_⟩
  · rw [h4e, h3e, h2e, h1e]
  · intro x hx
    rw [h4e, h3e, h2e, h1e] at hx
    rcases List.mem_append.mp hx with hx | hx
    · rcases List.mem_append.mp hx with hx | hx
      · rcases List.mem_append.mp hx with hx | hx
        · exact h1a x hx
        · exact h2a x hx
      · exact h3a x hx
    · exact h4a x hx

/-- Every item accepted across the whole run has a normalized URL
distinct from every other accepted item's. -/
theorem cascade_valid_pairwise (env : CascadeEnv) (k : Int) :
    (yxOut env k).valid.Pairwise
      (fun a b => normalize_url a.url ≠ normalize_url b.url) := by
  obtain ⟨t1, t2, t3, t4, s1, s2, s3, s4, he, _⟩ := cascade_valid_decomp env k
  rw [he]
  have m1 : (t1.map (fun c => c.url)).Sublist (braveOut env k).admitted := by
    have h := s1.map (fun c : ScrapedContent => c.url)
    rwa [map_url_scrapeTab] at h
  have m2 : (t2.map (fun c => c.url)).Sublist (spOut env k).uniq := by
    have h := s2.map (fun c : ScrapedContent => c.url)
    rwa [map_url_scrapeTab] at h
  have m3 : (t3.map (fun c => c.url)).Sublist (yhOut env k).uniq := by
    have h := s3.map (fun c : ScrapedContent => c.url)
    rwa [map_url_scrapeTab] at h
  have m4 : (t4.map (fun c => c.url)).Sublist (yxOut env k).uniq := by
    have h := s4.map (fun c : ScrapedContent => c.url)
    rwa [map_url_scrapeTab] at h
  have hsub : ((((t1 ++ t2) ++ t3) ++ t4).map (fun c => c.url)).Sublist
      ((braveOut env k).admitted ++ ((spOut env k).uniq ++ ((yhOut env k).uniq
        ++ (yxOut env k).uniq))) := by
    simp only [List.map_append, List.append_assoc]
    exact m1.append (m2.append (m3.append m4))
  have hp : ((((t1 ++ t2) ++ t3) ++ t4).map
        (fun c : ScrapedContent => c.url)).Pairwise
      (fun a b => normalize_url a ≠ normalize_url b) :=
    List.Pairwise.sublist hsub (cascade_uniq_pairwise env k)
  have hq := List.pairwise_map.mp hp
  exact hq

/-! ### Engine bookkeeping lemmas -/

theorem engines1D_mem (env : CascadeEnv) (k : Int) (x : Str)
    (hx : x ∈ engines1D env k) : x = braveName := by
  rw [engines1D] at hx
  split at hx <;> simp_all

theorem engines1D_brave_iff (env : CascadeEnv) (k : Int) :
    braveName ∈ engines1D env k ↔ valid1D env k ≠ [] := by
  rw [engines1D]
  by_cases h : 0 < (valid1D env k).length
  · rw [if_pos h]
    simp [List.length_pos] at h
    simp [h]
  · rw [if_neg h]
    simp [List.length_pos] at h
    simp [h]

theorem fallbackPhase_engines_mem (charOk : Char → Bool)
    (fetch : Str → FetchOutcome) (searchFn : Int → List Str) (pre : Bool)
    (flags : List Bool) (mp : Nat) (name : Str) (k sk : Int)
    (failedAll : Bool) (valid : List ScrapedContent)
    (seen engines : List Str) (x : Str)
    (hx : x ∈ (fallbackPhase charOk fetch searchFn pre flags mp name k sk
      failedAll valid seen engines).engines) :
    x ∈ engines ∨ x = name := by
  rcases fallbackPhase_engines charOk fetch searchFn pre flags mp name k sk
      failedAll valid seen engines with h | ⟨_, h⟩ <;> rw [h] at hx
  · exact Or.inl hx
  · rcases List.mem_append.mp hx with hx | hx
    · exact Or.inl hx
    · exact Or.inr (by simpa using hx)

theorem fallbackPhase_engines_mem_iff (charOk : Char → Bool)
    (fetch : Str → FetchOutcome) (searchFn : Int → List Str) (pre : Bool)
    (flags : List Bool) (mp : Nat) (name : Str) (k sk : Int)
    (failedAll : Bool) (valid : List ScrapedContent)
    (seen engines : List Str) (x : Str) (hxn : x ≠ name) :
    x ∈ (fallbackPhase charOk fetch searchFn pre flags mp name k sk
      failedAll valid seen engines).engines ↔ x ∈ engines := by
  rcases fallbackPhase_engines charOk fetch searchFn pre flags mp name k sk
      failedAll valid seen engines with h | ⟨_, h⟩
  · rw [h]
  · rw [h]; simp [hxn]

theorem fallbackPhase_engines_new (charOk : Char → Bool)
    (fetch : Str → FetchOutcome) (searchFn : Int → List Str) (pre : Bool)
    (flags : List Bool) (mp : Nat) (name : Str) (k sk : Int)
    (failedAll : Bool) (valid : List ScrapedContent)
    (seen engines : List Str)
    (hx : name ∈ (fallbackPhase charOk fetch searchFn pre flags mp name k sk
      failedAll valid seen engines).engines) (hnotin : name ∉ engines) :
    (fallbackPhase charOk fetch searchFn pre flags mp name k sk
      failedAll valid seen engines).uniq ≠ [] := by
  rcases fallbackPhase_engines charOk fetch searchFn pre flags mp name k sk
      failedAll valid seen engines with h | ⟨hne, h⟩
  · rw [h] at hx; exact absurd hx hnotin
  · exact hne

theorem cascade_engines_mem (env : CascadeEnv) (k : Int) (x : Str)
    (hx : x ∈ (yxOut env k).engines) :
    x = braveName ∨ x = startpageName ∨ x = yahooName ∨ x = yandexName := by
  rw [yxOut] at hx
  rcases fallbackPhase_engines_mem _ _ _ _ _ _ _ _ _ _ _ _ _ x hx with
    hx | rfl
  · rw [yhOut] at hx
    rcases fallbackPhase_engines_mem _ _ _ _ _ _ _ _ _ _ _ _ _ x hx with
      hx | rfl
    · rw [spOut] at hx
      rcases fallbackPhase_engines_mem _ _ _ _ _ _ _ _ _ _ _ _ _ x hx with
        hx | rfl
      · exact Or.inl (engines1D_mem env k x hx)
      · exact Or.inr (Or.inl rfl)
    · exact Or.inr (Or.inr (Or.inl rfl))
  · exact Or.inr (Or.inr (Or.inr rfl))

theorem cascade_brave_iff (env : CascadeEnv) (k : Int) :
    braveName ∈ (yxOut env k).engines ↔ valid1D env k ≠ [] := by
  rw [yxOut,
    fallbackPhase_engines_mem_iff _ _ _ _ _ _ _ _ _ _ _ _ _ braveName
      (by decide),
    yhOut,
    fallbackPhase_engines_mem_iff _ _ _ _ _ _ _ _ _ _ _ _ _ braveName
      (by decide),
    spOut,
    fallbackPhase_engines_mem_iff _ _ _ _ _ _ _ _ _ _ _ _ _ braveName
      (by decide)]
  exact engines1D_brave_iff env k

theorem cascade_sp_attempt (env : CascadeEnv) (k : Int)
    (hx : startpageName ∈ (yxOut env k).engines) :
    (spOut env k).uniq ≠ [] := by
  rw [yxOut,
    fallbackPhase_engines_mem_iff _ _ _ _ _ _ _ _ _ _ _ _ _ startpageName
      (by decide),
    yhOut,
    fallbackPhase_engines_mem_iff _ _ _ _ _ _ _ _ _ _ _ _ _ startpageName
      (by decide)] at hx
  rw [spOut] at hx ⊢
  refine fallbackPhase_engines_new _ _ _ _ _ _ _ _ _ _ _ _ _ hx ?_
  intro hmem
  have h := engines1D_mem env k startpageName hmem
  exact absurd h (by decide)

theorem cascade_yahoo_attempt (env : CascadeEnv) (k : Int)
    (hx : yahooName ∈ (yxOut env k).engines) :
    (yhOut env k).uniq ≠ [] := by
  rw [yxOut,
    fallbackPhase_engines_mem_iff _ _ _ _ _ _ _ _ _ _ _ _ _ yahooName
      (by decide)] at hx
  rw [yhOut] at hx ⊢
  refine fallbackPhase_engines_new _ _ _ _ _ _ _ _ _ _ _ _ _ hx ?_
  intro hmem
  rw [spOut] at hmem
  rcases fallbackPhase_engines_mem _ _ _ _ _ _ _ _ _ _ _ _ _ _ hmem with
    hmem | heq
  · have h := engines1D_mem env k yahooName hmem
    exact absurd h (by decide)
  · exact absurd heq (by decide)

theorem cascade_yandex_attempt (env : CascadeEnv) (k : Int)
    (hx : yandexName ∈ (yxOut env k).engines) :
    (yxOut env k).uniq ≠ [] := by
  rw [yxOut] at hx ⊢
  refine fallbackPhase_engines_new _ _ _ _ _ _ _ _ _ _ _ _ _ hx ?_
  intro hmem
  rw [yhOut] at hmem
  rcases fallbackPhase_engines_mem _ _ _ _ _ _ _ _ _ _ _ _ _ _ hmem with
    hmem | heq
  · rw [spOut] at hmem
    rcases fallbackPhase_engines_mem _ _ _ _ _ _ _ _ _ _ _ _ _ _ hmem with
      hmem | heq
    · have h := engines1D_mem env k yandexName hmem
      exact absurd h (by decide)
    · exact absurd heq (by decide)
  · exact absurd heq (by decide)

theorem engineName_eq_none_iff (engines : List Str)
    (hsub : ∀ x ∈ engines, x = braveName ∨ x = startpageName ∨
      x = yahooName ∨ x = yandexName) :
    engineName engines = noneName ↔ engines = [] := by
  constructor
  · intro h
    cases engines with
    | nil => rfl
    | cons a tail =>
      exfalso
      have ha := hsub a (by simp)
      have ha5 : 5 ≤ a.length := by
        rcases ha with rfl | rfl | rfl | rfl <;> decide
      cases tail with
      | nil =>
        have h1 : engineName [a] = a := by
          rw [engineName]
          simp
        rw [h1] at h
        have hlen := congrArg List.length h
        have hnone : noneName.length = 4 := by decide
        omega
      | cons b rest =>
        have h2 : engineName (a :: b :: rest)
            = a ++ plusSep ++ joinSep plusSep (b :: rest) := by
          rw [engineName]
          rw [if_neg (by simp)]
          rw [if_neg (by simp)]
          rfl
        rw [h2] at h
        have hlen := congrArg List.length h
        simp only [List.length_append] at hlen
        have hplus : plusSep.length = 1 := by decide
        have hnone : noneName.length = 4 := by decide
        omega
  · intro h
    subst h
    rfl

/-! ### Lemmas about lower-casing and normalization -/

theorem char_toNat_ofNat (n : Nat) (h : n.isValidChar) :
    (Char.ofNat n).toNat = n := by
  simp [Char.ofNat, h, Char.ofNatAux, Char.toNat, UInt32.toNat, UInt32.ofNatCore]

theorem pyLower_toNat_of_upper (c : Char) (h : 'A' ≤ c ∧ c ≤ 'Z') :
    (pyLower c).toNat = c.toNat + 32 := by
  rw [pyLower, if_pos h]
  have h65 : 65 ≤ c.toNat := by
    have := h.1
    rw [Char.le_def] at this
    exact this
  have h90 : c.toNat ≤ 90 := by
    have := h.2
    rw [Char.le_def] at this
    exact this
  exact char_toNat_ofNat _ (Or.inl (by omega))

theorem pyLower_not_upper (c : Char) :
    ¬ ('A' ≤ pyLower c ∧ pyLower c ≤ 'Z') := by
  by_cases h : 'A' ≤ c ∧ c ≤ 'Z'
  · have ht := pyLower_toNat_of_upper c h
    have h90 : c.toNat ≥ 65 := h.1
    intro hcon
    have := hcon.2
    rw [Char.le_def] at this
    have : (pyLower c).toNat ≤ 90 := this
    omega
  · rw [pyLower, if_neg h]
    exact h

theorem pyLower_idem (c : Char) : pyLower (pyLower c) = pyLower c := by
  have h := pyLower_not_upper c
  rw [pyLower]
  rw [if_neg h]

theorem pyLower_eq_low (x c : Char) (hup : ¬ ('A' ≤ c ∧ c ≤ 'Z'))
    (hlt : c.toNat < 97) : pyLower x = c ↔ x = c := by
  constructor
  · intro h
    by_cases hx : 'A' ≤ x ∧ x ≤ 'Z'
    · exfalso
      have ht := pyLower_toNat_of_upper x hx
      have h65 : 65 ≤ x.toNat := hx.1
      rw [h] at ht
      omega
    · rwa [pyLower, if_neg hx] at h
  · intro h
    subst h
    rw [pyLower, if_neg hup]

theorem mem_map_pyLower_low (l : Str) (c : Char) (hup : ¬ ('A' ≤ c ∧ c ≤ 'Z'))
    (hlt : c.toNat < 97) : c ∈ l.map pyLower ↔ c ∈ l := by
  rw [List.mem_map]
  constructor
  · rintro ⟨x, hx, hxe⟩
    rwa [(pyLower_eq_low x c hup hlt).mp hxe] at hx
  · intro hc
    exact ⟨c, hc, (pyLower_eq_low c c hup hlt).mpr rfl⟩

theorem head?_dropWhile {α : Type} (p : α → Bool) :
    ∀ (l : List α) (a : α), (l.dropWhile p).head? = some a → p a = false := by
  intro l
  induction l with
  | nil => intro a h; simp at h
  | cons c rest ih =>
    intro a h
    by_cases hc : p c = true
    · rw [List.dropWhile_cons_of_pos hc] at h
      exact ih a h
    · rw [List.dropWhile_cons_of_neg hc] at h
      simp at h
      rw [← h]
      simpa using hc

theorem rstripSlash_getLast (u : Str) (a : Char)
    (h : (rstripSlash u).getLast? = some a) : a ≠ '/' := by
  rw [rstripSlash, List.getLast?_reverse] at h
  have := head?_dropWhile (fun c => c == '/') u.reverse a h
  simpa using this

theorem rstripSlash_eq_self (u : Str) (h : u.getLast? ≠ some '/') :
    rstripSlash u = u := by
  rw [rstripSlash]
  cases hr : u.reverse with
  | nil =>
    have : u = [] := List.reverse_eq_nil_iff.mp hr
    simp [this]
  | cons c t =>
    have hc : c ≠ '/' := by
      intro hc
      apply h
      rw [← List.head?_reverse, hr, hc]
      rfl
    rw [List.dropWhile_cons_of_neg (by simpa using hc), ← hr,
      List.reverse_reverse]

theorem rstripSlash_subset (u : Str) (x : Char) (hx : x ∈ rstripSlash u) :
    x ∈ u := by
  rw [rstripSlash, List.mem_reverse] at hx
  have := (List.dropWhile_sublist (fun c => c == '/')).subset hx
  rwa [List.mem_reverse] at this

theorem hash_not_upper : ¬ ('A' ≤ '#' ∧ '#' ≤ 'Z') := by decide

theorem slash_not_upper : ¬ ('A' ≤ '/' ∧ '/' ≤ 'Z') := by decide

theorem query_not_upper : ¬ ('A' ≤ '?' ∧ '?' ≤ 'Z') := by decide

theorem dropFragment_no_hash (u : Str) : '#' ∉ dropFragment u := by
  rw [dropFragment]
  by_cases h1 : '#' ∈ u
  · rw [if_pos h1]
    intro hmem
    have h := List.mem_takeWhile_imp hmem
    simp at h
  · rw [if_neg h1]
    exact h1

theorem lowerIfQuery_no_hash (u : Str) (h : '#' ∉ u) :
    '#' ∉ lowerIfQuery u := by
  rw [lowerIfQuery]
  by_cases h3 : '?' ∈ u
  · rw [if_pos h3]
    rw [mem_map_pyLower_low u '#' hash_not_upper (by decide)]
    exact h
  · rw [if_neg h3]
    exact h

/-- The normalized form never contains a fragment marker. -/
theorem normalize_no_hash (u : Str) : '#' ∉ normalize_url u := by
  rw [normalize_url]
  exact lowerIfQuery_no_hash _ (dropFragment_no_hash _)

/-- The output of `lowerIfQuery` is a fixed point of lower-casing as
soon as it contains a query marker. -/
theorem lowerIfQuery_lowered (u : Str) (hq : '?' ∈ lowerIfQuery u) :
    (lowerIfQuery u).map pyLower = lowerIfQuery u := by
  rw [lowerIfQuery] at hq ⊢
  by_cases h3 : '?' ∈ u
  · rw [if_pos h3] at hq ⊢
    rw [List.map_map]
    have h : pyLower ∘ pyLower = pyLower := funext pyLower_idem
    rw [h]
  · rw [if_neg h3] at hq
    exact absurd hq h3

theorem getLast?_map_pyLower (l : Str) :
    (l.map pyLower).getLast? = Option.map pyLower l.getLast? := by
  rw [← List.head?_reverse, ← List.map_reverse, List.head?_map,
    List.head?_reverse]

theorem lowerIfQuery_getLast_ne_slash (u : Str)
    (h : u.getLast? ≠ some '/') : (lowerIfQuery u).getLast? ≠ some '/' := by
  rw [lowerIfQuery]
  by_cases h3 : '?' ∈ u
  · rw [if_pos h3, getLast?_map_pyLower]
    intro hc
    cases hg : u.getLast? with
    | none => rw [hg] at hc; simp at hc
    | some x =>
      rw [hg] at hc
      simp at hc
      have hx := (pyLower_eq_low x '/' slash_not_upper (by decide)).mp hc
      rw [hg, hx] at h
      exact h rfl
  · rw [if_neg h3]
    exact h

theorem rstripSlash_getLast_ne (u : Str) :
    (rstripSlash u).getLast? ≠ some '/' := by
  intro h
  exact rstripSlash_getLast u '/' h rfl

theorem dropFragment_eq_self (u : Str) (h : '#' ∉ u) : dropFragment u = u := by
  rw [dropFragment, if_neg h]

theorem normalize_getLast_of_no_hash (u : Str) (h : '#' ∉ u) :
    (normalize_url u).getLast? ≠ some '/' := by
  rw [normalize_url]
  have h1 : '#' ∉ rstripSlash u := fun hm => h (rstripSlash_subset u _ hm)
  rw [dropFragment_eq_self _ h1]
  exact lowerIfQuery_getLast_ne_slash _ (rstripSlash_getLast_ne u)

/-- One extra application of `normalize_url` is the identity whenever
its input's normalized form does not end in a slash. -/
theorem normalize_idem_of_no_trailing (u : Str)
    (h : (normalize_url u).getLast? ≠ some '/') :
    normalize_url (normalize_url u) = normalize_url u := by
  have hnh := normalize_no_hash u
  conv_lhs => rw [normalize_url]
  rw [rstripSlash_eq_self _ h, dropFragment_eq_self _ hnh]
  rw [lowerIfQuery]
  by_cases hq : '?' ∈ normalize_url u
  · rw [if_pos hq]
    exact lowerIfQuery_lowered _ hq
  · rw [if_neg hq]

theorem normalize_idem_of_no_hash (u : Str) (h : '#' ∉ u) :
    normalize_url (normalize_url u) = normalize_url u :=
  normalize_idem_of_no_trailing u (normalize_getLast_of_no_hash u h)

theorem rstripSlash_length_lt (v : Str) (hv : v.getLast? = some '/') :
    (rstripSlash v).length < v.length := by
  rw [rstripSlash, List.length_reverse]
  cases hr : v.reverse with
  | nil =>
    exfalso
    have hnil : v = [] := List.reverse_eq_nil_iff.mp hr
    rw [hnil] at hv
    cases hv
  | cons c t =>
    have hc : c = '/' := by
      have h1 := List.head?_reverse v
      rw [hr, hv] at h1
      simpa using h1
    have hvlen : v.length = t.length + 1 := by
      rw [← List.length_reverse v, hr]
      simp
    rw [List.dropWhile_cons_of_pos (by simp [hc])]
    have hle := (@List.dropWhile_sublist _ t (fun c => c == '/')).length_le
    omega

theorem dropFragment_length_le (w : Str) :
    (dropFragment w).length ≤ w.length := by
  rw [dropFragment]
  split
  · exact (List.takeWhile_sublist _).length_le
  · exact Nat.le_refl _

theorem lowerIfQuery_length (w : Str) :
    (lowerIfQuery w).length = w.length := by
  rw [lowerIfQuery]
  split
  · simp
  · rfl

/-- Any input whose value ends in `'/'` strictly shrinks under one more
normalization pass, because the slash-strip runs first. -/
theorem normalize_length_lt (v : Str) (hv : v.getLast? = some '/') :
    (normalize_url v).length < v.length := by
  rw [normalize_url, lowerIfQuery_length]
  have h1 := dropFragment_length_le (rstripSlash v)
  have h2 := rstripSlash_length_lt v hv
  omega

/-- Normalization is NOT idempotent at any URL whose normalized form
ends in a slash. -/
theorem normalize_not_idem_of_trailing (u : Str)
    (hv : (normalize_url u).getLast? = some '/') :
    normalize_url (normalize_url u) ≠ normalize_url u := by
  intro h
  have hlt := normalize_length_lt (normalize_url u) hv
  rw [h] at hlt
  omega

theorem dropFragment_eq_takeWhile (u : Str) :
    dropFragment u = u.takeWhile (fun c => c != '#') := by
  rw [dropFragment]
  by_cases h : '#' ∈ u
  · rw [if_pos h]
  · rw [if_neg h]
    have : ∀ x ∈ u, (x != '#') = true := by
      intro x hx
      simp only [bne_iff_ne, ne_eq]
      intro hc
      rw [hc] at hx
      exact h hx
    exact (List.takeWhile_eq_self_iff.mpr this).symm

theorem dedupFilter_admitted_mem (l seen : List Str) (x : Str)
    (hx : x ∈ (dedupFilter l seen).admitted) : x ∈ l :=
  (dedupFilter_sublist l seen).subset hx

/-! ### Substring test correctness -/

theorem isPrefixOf_iff_exists (l₁ : Str) :
    ∀ l₂ : Str, l₁.isPrefixOf l₂ = true ↔ ∃ t, l₂ = l₁ ++ t := by
  induction l₁ with
  | nil =>
    intro l₂
    simp [List.isPrefixOf]
  | cons a l ih =>
    intro l₂
    cases l₂ with
    | nil => simp [List.isPrefixOf]
    | cons b t =>
      rw [List.isPrefixOf]
      simp only [Bool.and_eq_true, beq_iff_eq, ih]
      constructor
      · rintro ⟨rfl, u, rfl⟩
        exact ⟨u, rfl⟩
      · rintro ⟨u, hu⟩
        rw [List.cons_append] at hu
        injection hu with h1 h2
        exact ⟨h1.symm, u, h2⟩

theorem containsSub_iff (sub : Str) :
    ∀ l : Str, containsSub sub l = true ↔ ∃ s t, l = s ++ sub ++ t := by
  intro l
  induction l with
  | nil =>
    rw [containsSub]
    simp only [List.isEmpty_iff]
    constructor
    · rintro rfl
      exact ⟨[], [], rfl⟩
    · rintro ⟨s, t, h⟩
      have h' := h.symm
      simp only [List.append_eq_nil] at h'
      exact h'.1.2
  | cons c rest ih =>
    rw [containsSub]
    simp only [Bool.or_eq_true, ih, isPrefixOf_iff_exists]
    constructor
    · rintro (⟨t, ht⟩ | ⟨s, t, h⟩)
      · exact ⟨[], t, by simp [ht]⟩
      · exact ⟨c :: s, t, by simp [h]⟩
    · rintro ⟨s, t, h⟩
      cases s with
      | nil =>
        left
        exact ⟨t, by simpa using h⟩
      | cons x s' =>
        right
        rw [List.cons_append, List.cons_append] at h
        injection h with h1 h2
        exact ⟨s', t, by simpa using h2⟩

/-! ### Validation lemmas -/

theorem cond1_iff (query : Str) :
    (query.isEmpty || (pyStrip query).length == 0) = true ↔
      pyStrip query = [] := by
  simp only [Bool.or_eq_true, List.isEmpty_iff, beq_iff_eq,
    List.length_eq_zero]
  constructor
  · rintro (rfl | h)
    · rfl
    · exact h
  · intro h
    exact Or.inr h

theorem validate_none_iff (query : Str) (k : Int) (engine : Str) :
    validateContentRequest query k engine = none ↔
      ¬ (pyStrip query = [] ∨ 500 < query.length ∨ k < 1 ∨ 20 < k ∨
        engine ∉ supported_engines) := by
  rw [validateContentRequest]
  by_cases h1 : (query.isEmpty || (pyStrip query).length == 0) = true
  · rw [if_pos h1]
    have hq := (cond1_iff query).mp h1
    simp [hq]
  · rw [if_neg h1]
    have h1' : ¬ pyStrip query = [] := fun hc => h1 ((cond1_iff query).mpr hc)
    by_cases h2 : 500 < query.length
    · rw [if_pos h2]
      simp [h2]
    · rw [if_neg h2]
      by_cases h3 : k < 1 ∨ 20 < k
      · rw [if_pos h3]
        exact iff_of_false (by simp) (by tauto)
      · rw [if_neg h3]
        by_cases h4 : engine ∉ supported_engines
        · rw [if_pos h4]
          exact iff_of_false (by simp) (by tauto)
        · rw [if_neg h4]
          exact iff_of_true rfl (by tauto)

theorem content_handler_status_ne_400 (env : CascadeEnv) (query : Str)
    (k : Int) (engine : Str)
    (hv : validateContentRequest query k engine = none) :
    (content_handler env query k engine).1 ≠ 400 := by
  rw [content_handler, hv, search_and_scrape]
  by_cases he : (engine != braveName) = true
  · rw [if_pos he]
    simp
  · rw [if_neg he]
    simp

/-! ### Concrete runs used by the witnesses and counterexamples -/

def urlA : Str := "https://example.org/a".toList

def urlB : Str := "https://example.net/b".toList

def goodTitle : Str := "Example Page".toList

def goodText : Str := (List.replicate 50 ['a', ' ']).flatten

def goodFetch : Str → FetchOutcome := fun _ => FetchOutcome.ok goodTitle goodText

def badFetch : Str → FetchOutcome :=
  fun _ => FetchOutcome.navError ("boom".toList)

/-- A run environment with no memory pressure, no deadline pressure and
silent fallback providers. -/
def baseEnv : CascadeEnv :=
  { charOk := fun c => c.isAlphanum || c.isWhitespace
    fetch := goodFetch
    braveSearch := fun _ => []
    startpageSearch := fun _ => []
    yahooSearch := fun _ => []
    yandexSearch := fun _ => []
    reduceParallel := false
    preB := false, preS := false, preY := false, preZ := false
    flagsB := [], flagsS := [], flagsY := [], flagsZ := [] }

/-- Brave returns one URL whose page passes the quality gate. -/
def envGood : CascadeEnv := { baseEnv with braveSearch := fun _ => [urlA] }

/-- Brave returns one URL but every fetch fails: one scraped attempt,
zero valid results. -/
def cexEnv : CascadeEnv :=
  { baseEnv with braveSearch := fun _ => [urlA], fetch := badFetch }

/-- Brave finds nothing; Startpage supplies one good URL. -/
def envC : CascadeEnv := { baseEnv with startpageSearch := fun _ => [urlB] }

def sampleResult : ScrapedContent := scrape_in_new_tab goodFetch urlA

def fragSlashUrl : Str := "a/#f".toList

def queryUrl : Str := "AB?q/".toList

def capsUrl : Str := "AB".toList

def netflixUrl : Str := "https://netflix.com".toList

def wsQuery : Str := [' ']

/-! ### Recorded-iff-scraped lemmas -/

theorem fallbackPhase_engines_scraped_iff (charOk : Char → Bool)
    (fetch : Str → FetchOutcome) (searchFn : Int → List Str) (pre : Bool)
    (flags : List Bool) (mp : Nat) (name : Str) (k sk : Int)
    (failedAll : Bool) (valid : List ScrapedContent)
    (seen engines : List Str) (hnotin : name ∉ engines) :
    name ∈ (fallbackPhase charOk fetch searchFn pre flags mp name k sk
      failedAll valid seen engines).engines ↔
    (fallbackPhase charOk fetch searchFn pre flags mp name k sk
      failedAll valid seen engines).scraped ≠ [] := by
  rcases fallbackPhase_spec charOk fetch searchFn pre flags mp name k sk
      failedAll valid seen engines with hs | ⟨hlt, q, hs | ⟨hne, hs⟩⟩ <;>
    rw [hs]
  · simp [hnotin]
  · simp [hnotin]
  · simp only [List.mem_append, List.mem_singleton, or_true, true_iff]
    simpa using hne

theorem spOut_engines_mem (env : CascadeEnv) (k : Int) (x : Str)
    (hx : x ∈ (spOut env k).engines) :
    x = braveName ∨ x = startpageName := by
  rw [spOut] at hx
  rcases fallbackPhase_engines_mem _ _ _ _ _ _ _ _ _ _ _ _ _ x hx with
    hx | rfl
  · exact Or.inl (engines1D_mem env k x hx)
  · exact Or.inr rfl

theorem yhOut_engines_mem (env : CascadeEnv) (k : Int) (x : Str)
    (hx : x ∈ (yhOut env k).engines) :
    x = braveName ∨ x = startpageName ∨ x = yahooName := by
  rw [yhOut] at hx
  rcases fallbackPhase_engines_mem _ _ _ _ _ _ _ _ _ _ _ _ _ x hx with
    hx | rfl
  · rcases spOut_engines_mem env k x hx with h | h
    · exact Or.inl h
    · exact Or.inr (Or.inl h)
  · exact Or.inr (Or.inr rfl)

/-- Startpage is recorded in the final engine list exactly when its
phase scraped a non-empty batch. -/
theorem cascade_sp_scraped_iff (env : CascadeEnv) (k : Int) :
    startpageName ∈ (yxOut env k).engines ↔ (spOut env k).scraped ≠ [] := by
  rw [yxOut,
    fallbackPhase_engines_mem_iff _ _ _ _ _ _ _ _ _ _ _ _ _ startpageName
      (by decide),
    yhOut,
    fallbackPhase_engines_mem_iff _ _ _ _ _ _ _ _ _ _ _ _ _ startpageName
      (by decide),
    spOut]
  refine fallbackPhase_engines_scraped_iff _ _ _ _ _ _ _ _ _ _ _ _ _ ?_
  intro hmem
  have h := engines1D_mem env k startpageName hmem
  exact absurd h (by decide)

/-- Yahoo is recorded exactly when its phase scraped a non-empty
batch. -/
theorem cascade_yahoo_scraped_iff (env : CascadeEnv) (k : Int) :
    yahooName ∈ (yxOut env k).engines ↔ (yhOut env k).scraped ≠ [] := by
  rw [yxOut,
    fallbackPhase_engines_mem_iff _ _ _ _ _ _ _ _ _ _ _ _ _ yahooName
      (by decide),
    yhOut]
  refine fallbackPhase_engines_scraped_iff _ _ _ _ _ _ _ _ _ _ _ _ _ ?_
  intro hmem
  rcases spOut_engines_mem env k yahooName hmem with h | h <;>
    exact absurd h (by decide)

/-- Yandex is recorded exactly when its phase scraped a non-empty
batch. -/
theorem cascade_yandex_scraped_iff (env : CascadeEnv) (k : Int) :
    yandexName ∈ (yxOut env k).engines ↔ (yxOut env k).scraped ≠ [] := by
  rw [yxOut]
  refine fallbackPhase_engines_scraped_iff _ _ _ _ _ _ _ _ _ _ _ _ _ ?_
  intro hmem
  rcases yhOut_engines_mem env k yandexName hmem with h | h | h <;>
    exact absurd h (by decide)

/-! ### Claim theorems -/

set_option maxRecDepth 40000

/-- C1: for every valid request (k in [1,20], content mode), the cascade
returns at most `k` items: the running accumulator of accepted items
never exceeds `k` because every evaluation loop stops the moment `k`
accepted items are reached, and the returned list is additionally the
`k`-truncation of the accumulator. -/
theorem C1_cascade_at_most_k (env : CascadeEnv) (k : Int)
    (h1 : 1 ≤ k) (h2 : k ≤ 20) :
    ((runCascade env k).valid.length : Int) ≤ k ∧
    ((runCascade env k).results.length : Int) ≤ k ∧
    (runCascade env k).results = (runCascade env k).valid.take k.toNat := by
  refine ⟨yxOut_valid_length env k h1, ?_, rfl⟩
  have hlen : (runCascade env k).results.length ≤ k.toNat := by
    show ((yxOut env k).valid.take k.toNat).length ≤ k.toNat
    simp [List.length_take]
  have hk : ((k.toNat : Int)) = k := Int.toNat_of_nonneg (by omega)
  omega

theorem C1_witness :
    ((1 : Int) ≤ 5 ∧ (5 : Int) ≤ 20) ∧
    (((runCascade envGood 5).valid.length : Int) ≤ 5 ∧
     ((runCascade envGood 5).results.length : Int) ≤ 5 ∧
     (runCascade envGood 5).results
       = (runCascade envGood 5).valid.take (5 : Int).toNat) :=
  ⟨⟨by decide, by decide⟩, C1_cascade_at_most_k envGood 5 (by decide) (by decide)⟩

/-- C3 counterexample: normalization is NOT idempotent as claimed.  For
`"a/#f"` the trailing slash is stripped before the fragment is dropped,
so the first pass yields `"a/"` and the second pass `"a"`. -/
theorem C3_counterexample :
    normalize_url (normalize_url fragSlashUrl) ≠ normalize_url fragSlashUrl := by
  decide

/-- C3 amended: `normalize_url` is idempotent at a URL exactly when its
normalized form does not end in `'/'` — the only failures are fragment
URLs whose prefix before `'#'` ends in a slash, exactly what the
counterexample exhibits; in particular normalization is idempotent on
every URL without a `'#'`. -/
theorem C3_normalize_idem_amended (u : Str) :
    (normalize_url (normalize_url u) = normalize_url u ↔
      (normalize_url u).getLast? ≠ some '/') ∧
    ('#' ∉ u → normalize_url (normalize_url u) = normalize_url u) := by
  refine ⟨⟨?_, normalize_idem_of_no_trailing u⟩, normalize_idem_of_no_hash u⟩
  intro h hv
  exact normalize_not_idem_of_trailing u hv h

theorem C3_witness :
    ('#' ∉ queryUrl) ∧
    normalize_url (normalize_url queryUrl) = normalize_url queryUrl :=
  ⟨by decide, (C3_normalize_idem_amended queryUrl).2 (by decide)⟩

/-- C5: no two accepted items of one run share a normalized URL — the
seen set is accumulated across all providers and never reset, so this
holds across the whole cascade, not just within one provider's batch;
the same holds for the truncated result list; and the dedup filter
admits candidates as a sublist of the provider's returned order. -/
theorem C5_no_duplicate_normalized (env : CascadeEnv) (k : Int) :
    (runCascade env k).valid.Pairwise
      (fun a b => normalize_url a.url ≠ normalize_url b.url) ∧
    (runCascade env k).results.Pairwise
      (fun a b => normalize_url a.url ≠ normalize_url b.url) ∧
    ∀ l seen : List Str, ((dedupFilter l seen).admitted).Sublist l := by
  refine ⟨cascade_valid_pairwise env k, ?_, dedupFilter_sublist⟩
  exact List.Pairwise.sublist (List.take_sublist _ _)
    (cascade_valid_pairwise env k)

/-- C2 counterexample: "a provider appears in the composite identifier
iff it contributed at least one scraped attempt" fails for the primary
provider.  Brave's batch contributes exactly one scraped attempt (all
fetches fail the gate), yet the recorded engine list stays empty and
the composite identifier is the sentinel `"none"`. -/
theorem C2_counterexample :
    (runCascade cexEnv 5).unique_brave.length = 1 ∧
    (runCascade cexEnv 5).engines = [] ∧
    (runCascade cexEnv 5).engine = noneName := by
  decide

/-- C2 amended: Brave is recorded iff its own batch produced at least
one accepted result (not merely a scraped attempt); each fallback
provider is recorded iff it contributed at least one scraped attempt
(its scraped batch is non-empty); and the composite identifier is
`"none"` exactly when no provider was recorded. -/
theorem C2_engines_recording (env : CascadeEnv) (k : Int) :
    (braveName ∈ (runCascade env k).engines ↔ (runCascade env k).valid1 ≠ []) ∧
    (startpageName ∈ (runCascade env k).engines ↔
      (runCascade env k).sp.scraped ≠ []) ∧
    (yahooName ∈ (runCascade env k).engines ↔
      (runCascade env k).yh.scraped ≠ []) ∧
    (yandexName ∈ (runCascade env k).engines ↔
      (runCascade env k).yx.scraped ≠ []) ∧
    ((runCascade env k).engine = noneName ↔ (runCascade env k).engines = []) :=
  ⟨cascade_brave_iff env k, cascade_sp_scraped_iff env k,
   cascade_yahoo_scraped_iff env k, cascade_yandex_scraped_iff env k,
   engineName_eq_none_iff _ (cascade_engines_mem env k)⟩

theorem C2_witness :
    startpageName ∈ (runCascade envC 5).engines ∧
    (runCascade envC 5).sp.scraped ≠ [] :=
  ⟨(C2_engines_recording envC 5).2.1.mpr (by decide),
   (C2_engines_recording envC 5).2.1.mp (by decide)⟩

/-- C4: every item in the returned result list passed the content
quality gate: the fetch succeeded, the word count is at least 50, the
title carries none of the four error-page markers, and the text is
machine-readable (at least 10 characters of which at least 70% are
alphanumeric-or-whitespace); in particular no item with fewer than 50
words is ever returned, for any provider. -/
theorem C4_quality_gate (env : CascadeEnv) (k : Int) (c : ScrapedContent)
    (hc : c ∈ (runCascade env k).results) :
    c.success = true ∧ 50 ≤ c.word_count ∧
    containsSub marker403 c.title = false ∧
    containsSub markerForbidden c.title = false ∧
    containsSub marker404 c.title = false ∧
    containsSub markerNotFound c.title = false ∧
    is_llm_readable env.charOk c.content = true := by
  have hmem : c ∈ (yxOut env k).valid := by
    have hr : (runCascade env k).results
        = (yxOut env k).valid.take k.toNat := rfl
    rw [hr] at hc
    exact List.take_subset _ _ hc
  obtain ⟨_, _, _, _, _, _, _, _, _, hall⟩ := cascade_valid_decomp env k
  have hp := hall c hmem
  rw [passes_filter] at hp
  simp only [Bool.and_eq_true, Bool.not_eq_true', decide_eq_true_eq] at hp
  obtain ⟨⟨⟨⟨⟨⟨hs, hw⟩, h403⟩, hforb⟩, h404⟩, hnf⟩, hread⟩ := hp
  exact ⟨hs, hw, h403, hforb, h404, hnf, hread⟩

theorem C4_witness :
    sampleResult ∈ (runCascade envGood 5).results ∧
    (sampleResult.success = true ∧ 50 ≤ sampleResult.word_count ∧
     containsSub marker403 sampleResult.title = false ∧
     containsSub markerForbidden sampleResult.title = false ∧
     containsSub marker404 sampleResult.title = false ∧
     containsSub markerNotFound sampleResult.title = false ∧
     is_llm_readable envGood.charOk sampleResult.content = true) :=
  ⟨by decide, C4_quality_gate envGood 5 sampleResult (by decide)⟩

/-- C6: the wave scraper returns exactly one entry per input URL, in
input order (the i-th output is the scrape of the i-th URL, with no
`None` holes left in the result array), and a per-URL failure — whether
navigation failed or even the tab could not be created — produces a
failed `ScrapedContent` with a non-empty error message instead of
aborting the wave or the batch. -/
theorem C6_scrape_parallel (f : Str → FetchOutcome) (urls : List Str)
    (mp : Nat) (u m : Str)
    (h : f u = FetchOutcome.navError m ∨ f u = FetchOutcome.pageError m) :
    scrape_parallel_playwright f urls mp
      = urls.map (fun v => some (scrape_in_new_tab f v)) ∧
    (scrape_in_new_tab f u).success = false ∧
    ∃ msg, (scrape_in_new_tab f u).error = some msg ∧ msg ≠ [] := by
  refine ⟨?_, ?_⟩
  · rw [scrape_parallel_eq, List.map_map]
    rfl
  · rcases h with h | h
    · refine ⟨?_, scrapeErrorTag ++ m, ?_, ?_⟩
      · simp [scrape_in_new_tab, h, scrape_url_playwright]
      · simp [scrape_in_new_tab, h, scrape_url_playwright]
      · intro hc
        have hl := congrArg List.length hc
        rw [List.length_append] at hl
        have h27 : 0 < scrapeErrorTag.length := by decide
        simp only [List.length_nil] at hl
        omega
    · refine ⟨?_, tabErrorTag ++ m, ?_, ?_⟩
      · simp [scrape_in_new_tab, h]
      · simp [scrape_in_new_tab, h]
      · intro hc
        have hl := congrArg List.length hc
        rw [List.length_append] at hl
        have h17 : 0 < tabErrorTag.length := by decide
        simp only [List.length_nil] at hl
        omega

theorem C6_witness :
    (scrape_parallel_playwright badFetch [urlA, urlB] 11
      = [urlA, urlB].map (fun v => some (scrape_in_new_tab badFetch v))) ∧
    (scrape_in_new_tab badFetch urlA).success = false ∧
    ∃ msg, (scrape_in_new_tab badFetch urlA).error = some msg ∧ msg ≠ [] :=
  C6_scrape_parallel badFetch [urlA, urlB] 11 urlA ("boom".toList)
    (Or.inl rfl)

/-- The normalized form exactly as claim C7 words it: trailing slashes
stripped, fragment dropped, and the whole string unconditionally
lower-cased. -/
def normalize_claimC7 (u : Str) : Str :=
  ((rstripSlash u).takeWhile (fun c => c != '#')).map pyLower

/-- The normalized form with the one change the counterexample forces:
lower-casing applies only when the URL contains a query marker. -/
def normalize_amendedC7 (u : Str) : Str :=
  if '?' ∈ (rstripSlash u).takeWhile (fun c => c != '#') then
    ((rstripSlash u).takeWhile (fun c => c != '#')).map pyLower
  else (rstripSlash u).takeWhile (fun c => c != '#')

/-- C7 counterexample: the code does NOT lower-case every URL for
comparison — `"AB"` contains no `'?'`, so its normalized form keeps its
original casing, unlike the claimed unconditional lower-casing. -/
theorem C7_counterexample :
    normalize_url capsUrl ≠ normalize_claimC7 capsUrl := by
  decide

/-- C7 amended: the normalized form is the URL with trailing slashes
stripped, then the fragment (`'#'` and everything after it) dropped,
then lower-cased exactly when the result contains `'?'`; the original
casing of the admitted URL is what the dedup loop keeps for fetching
(every admitted URL is an element of the provider's raw list). -/
theorem C7_normalized_form (u : Str) :
    normalize_url u = normalize_amendedC7 u ∧
    ∀ (l seen : List Str) (x : Str),
      x ∈ (dedupFilter l seen).admitted → x ∈ l := by
  constructor
  · rw [normalize_url, normalize_amendedC7, dropFragment_eq_takeWhile,
      lowerIfQuery]
  · exact fun l seen x => dedupFilter_admitted_mem l seen x

theorem C7_witness :
    normalize_url urlA = normalize_amendedC7 urlA ∧ urlA ∈ [urlA] :=
  ⟨(C7_normalized_form urlA).1,
   (C7_normalized_form urlA).2 [urlA] [] urlA (by decide)⟩

/-- C8 counterexample: the filter is NOT a registrable-domain match.
`https://netflix.com` is rejected because the blocklist entry `x.com`
occurs as a substring of the lower-cased URL, although its registrable
domain `netflix.com` matches no blocklist entry as a domain suffix. -/
theorem C8_counterexample :
    is_blocked_url netflixUrl = true ∧
    domain_on_blocklist (registrable_domain netflixUrl) = false := by
  decide

/-- C8 amended: a candidate URL is rejected by the filter iff one of
the fixed blocklist entries occurs as a contiguous substring of the
lower-cased URL — the same static list for every provider (the cascade
model applies the very same `is_blocked_url` inside `dedupFilter` in
all four phases). -/
theorem C8_blocklist_substring (u : Str) :
    is_blocked_url u = true ↔
    ∃ b ∈ blocked_domains, ∃ s t, u.map pyLower = s ++ b ++ t := by
  rw [is_blocked_url, List.any_eq_true]
  constructor
  · rintro ⟨b, hb, hc⟩
    exact ⟨b, hb, (containsSub_iff b _).mp hc⟩
  · rintro ⟨b, hb, h⟩
    exact ⟨b, hb, (containsSub_iff b _).mpr h⟩

/-- C9: the content-mode request is rejected with an immediate 400 —
and in that case the handler's output does not depend on the search
environment at all, so no cascade or scraping work is observable —
exactly when the query is empty after trimming or longer than 500
characters, or `k` lies outside [1,20], or the engine is not one of the
four supported names; a request meeting all constraints passes
validation (its status is 200 or, for a validated non-brave engine,
the tool's own 500, never 400). -/
theorem C9_validation (env : CascadeEnv) (query : Str) (k : Int)
    (engine : Str) :
    ((content_handler env query k engine).1 = 400 ↔
      (pyStrip query = [] ∨ 500 < query.length ∨ k < 1 ∨ 20 < k ∨
        engine ∉ supported_engines)) ∧
    (∀ env' : CascadeEnv, (content_handler env query k engine).1 = 400 →
      content_handler env query k engine
        = content_handler env' query k engine) := by
  constructor
  · cases hv : validateContentRequest query k engine with
    | some msg =>
      have hs : (content_handler env query k engine).1 = 400 := by
        rw [content_handler, hv]
      have hd : pyStrip query = [] ∨ 500 < query.length ∨ k < 1 ∨ 20 < k ∨
          engine ∉ supported_engines := by
        by_contra hc
        rw [(validate_none_iff query k engine).mpr hc] at hv
        cases hv
      exact iff_of_true hs hd
    | none =>
      have hd := (validate_none_iff query k engine).mp hv
      exact iff_of_false (content_handler_status_ne_400 env query k engine hv) hd
  · intro env' hs
    cases hv : validateContentRequest query k engine with
    | some msg =>
      rw [content_handler, hv, content_handler, hv]
    | none =>
      exact absurd hs (content_handler_status_ne_400 env query k engine hv)

theorem C9_witness :
    ((content_handler envGood wsQuery 5 braveName).1 = 400 ↔
      (pyStrip wsQuery = [] ∨ 500 < wsQuery.length ∨ (5 : Int) < 1 ∨
        20 < (5 : Int) ∨ braveName ∉ supported_engines)) ∧
    content_handler envGood wsQuery 5 braveName
      = content_handler cexEnv wsQuery 5 braveName :=
  ⟨(C9_validation envGood wsQuery 5 braveName).1,
   (C9_validation envGood wsQuery 5 braveName).2 cexEnv (by decide)⟩

/-- C10: every `ScrapedContent` produced by the scraper either
succeeded (with no error message), or else carries `word_count = 0`,
empty content and title, and a non-empty error message; consequently a
failed fetch can never reach the 50-word minimum of the quality gate,
so its word count alone already excludes it. -/
theorem C10_scraper_invariant (f : Str → FetchOutcome) (u : Str) :
    (((scrape_in_new_tab f u).success = true ∧
      (scrape_in_new_tab f u).error = none) ∨
     ((scrape_in_new_tab f u).success = false ∧
      (scrape_in_new_tab f u).word_count = 0 ∧
      (scrape_in_new_tab f u).content = [] ∧
      (scrape_in_new_tab f u).title = [] ∧
      ∃ m, (scrape_in_new_tab f u).error = some m ∧ m ≠ [])) ∧
    ((scrape_in_new_tab f u).success = false →
      (scrape_in_new_tab f u).word_count < 50) := by
  cases hf : f u with
  | ok title text =>
    constructor
    · left
      constructor
      · simp [scrape_in_new_tab, hf, scrape_url_playwright]
      · simp [scrape_in_new_tab, hf, scrape_url_playwright]
    · intro hs
      have : (scrape_in_new_tab f u).success = true := by
        simp [scrape_in_new_tab, hf, scrape_url_playwright]
      rw [this] at hs
      cases hs
  | navError m =>
    constructor
    · right
      refine ⟨?_, ?_, ?_, ?_, scrapeErrorTag ++ m, ?_, ?_⟩
      · simp [scrape_in_new_tab, hf, scrape_url_playwright]
      · simp [scrape_in_new_tab, hf, scrape_url_playwright]
      · simp [scrape_in_new_tab, hf, scrape_url_playwright]
      · simp [scrape_in_new_tab, hf, scrape_url_playwright]
      · simp [scrape_in_new_tab, hf, scrape_url_playwright]
      · intro hc
        have hl := congrArg List.length hc
        rw [List.length_append] at hl
        have h27 : 0 < scrapeErrorTag.length := by decide
        simp only [List.length_nil] at hl
        omega
    · intro _
      have : (scrape_in_new_tab f u).word_count = 0 := by
        simp [scrape_in_new_tab, hf, scrape_url_playwright]
      omega
  | pageError m =>
    constructor
    · right
      refine ⟨?_, ?_, ?_, ?_, tabErrorTag ++ m, ?_, ?_⟩
      · simp [scrape_in_new_tab, hf]
      · simp [scrape_in_new_tab, hf]
      · simp [scrape_in_new_tab, hf]
      · simp [scrape_in_new_tab, hf]
      · simp [scrape_in_new_tab, hf]
      · intro hc
        have hl := congrArg List.length hc
        rw [List.length_append] at hl
        have h17 : 0 < tabErrorTag.length := by decide
        simp only [List.length_nil] at hl
        omega
    · intro _
      have : (scrape_in_new_tab f u).word_count = 0 := by
        simp [scrape_in_new_tab, hf]
      omega

theorem C10_witness :
    (((scrape_in_new_tab badFetch urlB).success = true ∧
      (scrape_in_new_tab badFetch urlB).error = none) ∨
     ((scrape_in_new_tab badFetch urlB).success = false ∧
      (scrape_in_new_tab badFetch urlB).word_count = 0 ∧
      (scrape_in_new_tab badFetch urlB).content = [] ∧
      (scrape_in_new_tab badFetch urlB).title = [] ∧
      ∃ m, (scrape_in_new_tab badFetch urlB).error = some m ∧ m ≠ [])) ∧
    (scrape_in_new_tab badFetch urlB).word_count < 50 :=
  ⟨(C10_scraper_invariant badFetch urlB).1,
   (C10_scraper_invariant badFetch urlB).2 (by decide)⟩
